import Mathlib

/-!
# twirp-opentelemetry: span lifecycle of the tracing adapter

A shallow embedding of the Go package `oteltwirp` (files `comon.go`, `config.go`,
`semconv.go`, `trace_client.go`, `trace_server.go`).

* Go strings are Lean strings; the byte-indexed scans of the standard library look only
  for ASCII delimiters, so they are written over the character list of the string.
* Go `int` is the 64-bit `int`; it is embedded in `Int`, with the range checks of
  `strconv` kept explicit.
* The tracing SDK is an opaque capability for the package: a span is known only through
  the calls made on it.  The state threaded through every operation is therefore the
  chronological list `Log` of calls the package made on spans and on response bodies.
* A panic of the Go code is the `none` result of the embedded function.
-/

namespace oteltwirp

/-! ## Go standard library functions called by the package -/

/-- Go `error` value: `none` is `nil`, `some msg` is a non-nil error whose `Error()` is `msg`. -/
abbrev error := Option String

/-- `bytealg.IndexByteString`: position of the first occurrence of `c`, `none` for `-1`. -/
def indexByte (s : List Char) (c : Char) : Option Nat :=
  if s.indexOf c < s.length then some (s.indexOf c) else none

/-- `bytealg.LastIndexByteString`: position of the last occurrence of `c`, `none` for `-1`. -/
def lastIndexByte (s : List Char) (c : Char) : Option Nat :=
  if s.reverse.indexOf c < s.length then some (s.length - 1 - s.reverse.indexOf c) else none

/-- Go `net.SplitHostPort`: splits `host:port`, `[host]:port` into host and port; the
error value carries the `AddrError` reason. -/
def SplitHostPort (hostport : String) : Except String (String × String) :=
  let hp := hostport.toList
  -- The port starts after the last colon.
  match lastIndexByte hp ':' with
  | none => .error "missing port in address"
  | some i =>
    let tail (host : List Char) (j k : Nat) : Except String (String × String) :=
      if (indexByte (hp.drop j) '[').isSome then .error "unexpected '[' in address"
      else if (indexByte (hp.drop k) ']').isSome then .error "unexpected ']' in address"
      else .ok (String.mk host, String.mk (hp.drop (i + 1)))
    if hp.head? = some '[' then
      -- Expect the first ']' just before the last ':'.
      match indexByte hp ']' with
      | none => .error "missing ']' in address"
      | some e =>
        if e + 1 = hp.length then .error "missing port in address"
        else if e + 1 = i then tail ((hp.take e).drop 1) 1 (e + 1)
        else if hp.get? (e + 1) = some ':' then .error "too many colons in address"
        else .error "missing port in address"
    else
      if (indexByte (hp.take i) ':').isSome then .error "too many colons in address"
      else tail (hp.take i) 0 0

/-- The two `strconv.NumError` causes. -/
inductive NumError where
  | ErrSyntax
  | ErrRange
  deriving DecidableEq, Repr

/-- Digit value of a byte in the `strconv.ParseUint` loop: `0-9`, then letters from 10. -/
def digitVal (c : Char) : Option Nat :=
  if '0' ≤ c ∧ c ≤ '9' then some (c.toNat - '0'.toNat)
  else if 'a' ≤ c ∧ c ≤ 'z' then some (c.toNat - 'a'.toNat + 10)
  else if 'A' ≤ c ∧ c ≤ 'Z' then some (c.toNat - 'A'.toNat + 10)
  else none

/-- The digit loop of `strconv.ParseUint` for an explicit base `2 ≤ base ≤ 36` (no
underscores): `cutoff` is the least `n` with `n * base > maxUint64`, `maxVal` the largest
value of the bit size. -/
def parseUintLoop (base cutoff maxVal : Nat) : List Char → Nat → Nat × Option NumError
  | [], n => (n, none)
  | c :: cs, n =>
    match digitVal c with
    | none => (0, some .ErrSyntax)
    | some d =>
      if d ≥ base then (0, some .ErrSyntax)
      else if n ≥ cutoff then (maxVal, some .ErrRange)
      else if n * base + d > maxVal then (maxVal, some .ErrRange)
      else parseUintLoop base cutoff maxVal cs (n * base + d)

/-- Go `strconv.ParseUint(s, base, bitSize)` for `2 ≤ base ≤ 36` and `1 ≤ bitSize ≤ 64`. -/
def ParseUint (s : String) (base bitSize : Nat) : Nat × Option NumError :=
  if s.toList = [] then (0, some .ErrSyntax)
  else parseUintLoop base (2 ^ 64 / base + 1) (2 ^ bitSize - 1) s.toList 0

/-- Go `strconv.ParseInt(s, 10, 64)`: optional sign, then `ParseUint`, then the signed
range check. -/
def ParseInt (s : String) : Int × Option NumError :=
  match s.toList with
  | [] => (0, some .ErrSyntax)
  | c :: cs =>
    let neg := c = '-'
    let rest := if c = '+' ∨ c = '-' then cs else c :: cs
    match ParseUint (String.mk rest) 10 64 with
    | (_, some .ErrSyntax) => (0, some .ErrSyntax)
    | (un, _) =>
      if ¬ neg ∧ un ≥ 2 ^ 63 then ((2 : Int) ^ 63 - 1, some .ErrRange)
      else if neg ∧ un > 2 ^ 63 then (-(2 : Int) ^ 63, some .ErrRange)
      else (if neg then -(un : Int) else (un : Int), none)

/-- Go `strconv.Atoi` with a 64-bit `int`: the value and error of `ParseInt(s, 10, 0)`
(the short-string fast path returns the same pairs). -/
def Atoi (s : String) : Int × Option NumError :=
  ParseInt s

/-! ## Attributes and semantic conventions (`attribute`, `semconv/v1.7.0`, `semconv.go`) -/

/-- Value of an `attribute.KeyValue`: the two value types the package produces. -/
inductive Value where
  | STRING (s : String)
  | INT64 (n : Int)
  deriving DecidableEq, Repr

/-- Go `attribute.KeyValue`. -/
structure KeyValue where
  Key : String
  Value : Value
  deriving DecidableEq, Repr

/-- Go `attribute.Key.String`. -/
def Key_String (k : String) (v : String) : KeyValue := ⟨k, .STRING v⟩

/-- Go `attribute.Key.Int`. -/
def Key_Int (k : String) (v : Int) : KeyValue := ⟨k, .INT64 v⟩

def semconv.RPCSystemKey : String := "rpc.system"
def semconv.RPCServiceKey : String := "rpc.service"
def semconv.RPCMethodKey : String := "rpc.method"
def semconv.NetTransportKey : String := "net.transport"
def semconv.NetPeerIPKey : String := "net.peer.ip"
def semconv.NetPeerNameKey : String := "net.peer.name"
def semconv.NetPeerPortKey : String := "net.peer.port"
def semconv.HTTPStatusCodeKey : String := "http.status_code"

/-- The `semconv` constant `NetTransportTCP`. -/
def semconv.NetTransportTCP : KeyValue := Key_String semconv.NetTransportKey "ip_tcp"

/-- The `semconv` function `HTTPAttributesFromHTTPStatusCode`: the one status-code attribute. -/
def semconv.HTTPAttributesFromHTTPStatusCode (code : Int) : List KeyValue :=
  [Key_Int semconv.HTTPStatusCodeKey code]

def instrumentationName : String := "github.com/chengjiagan/twirp-opentelemetry"
def RPCNameKey : String := "name"
def RPCMessageTypeKey : String := "message.type"
def RPCSystemTwirp : KeyValue := Key_String semconv.RPCSystemKey "twrip"
def RPCNameMessage : KeyValue := Key_String RPCNameKey "message"
def RPCMessageTypeSent : KeyValue := Key_String RPCMessageTypeKey "SENT"
def RPCMessageTypeReceived : KeyValue := Key_String RPCMessageTypeKey "RECEIVED"
def rpcEventName : String := "message"

/-! ## Spans, contexts and the log of SDK calls -/

/-- Go `trace.SpanKind` values used by the package. -/
inductive SpanKind where
  | SpanKindServer
  | SpanKindClient
  deriving DecidableEq, Repr

/-- Go `codes.Code`. -/
inductive Code where
  | Unset
  | Error
  | Ok
  deriving DecidableEq, Repr

/-- A method call on a `trace.Span`. -/
inductive SpanCall where
  | SetName (name : String)
  | SetAttributes (kv : List KeyValue)
  | AddEvent (name : String) (attrs : List KeyValue)
  | RecordError (err : String)
  | SetStatus (code : Code) (description : String)
  | End
  deriving DecidableEq, Repr

/-- A `trace.Span` handle: `some id` is the span created by the `id`-th `Start`, `none` the
no-op span that `trace.SpanFromContext` returns for a context without a span. -/
abbrev Span := Option Nat

/-- One effect performed by the package, in the order performed: a span started on the
tracer, a method called on a span handle, the `Close` of a transport response body. -/
inductive Event where
  | Start (span : Nat) (name : String) (kind : SpanKind) (attrs : List KeyValue)
  | Call (span : Span) (call : SpanCall)
  | BodyClose (body : Nat)
  deriving DecidableEq, Repr

/-- The chronological record of effects (oldest first). -/
abbrev Log := List Event

/-- A method call on a span handle. -/
def Span.call (span : Span) (c : SpanCall) (log : Log) : Log :=
  log ++ [Event.Call span c]

/-- Go `context.Context` as the package reads it: the attached span, the value under
`keyRemoteAddr`, and the twirp metadata (`twirp.PackageName`, `ServiceName`, `MethodName`,
`StatusCode`), each absent or present. -/
structure Context where
  span : Span
  remoteAddr : Option String
  packageName : Option String
  serviceName : Option String
  methodName : Option String
  statusCode : Option String
  deriving DecidableEq, Repr

/-- Go `context.Background()`. -/
def Context.Background : Context := ⟨none, none, none, none, none, none⟩

/-- Go `trace.SpanFromContext`. -/
def SpanFromContext (ctx : Context) : Span := ctx.span

/-- Identifier of the next span the tracer starts. -/
def nextSpan (log : Log) : Nat :=
  (log.filter fun e => match e with | .Start .. => true | _ => false).length

/-- Go `tracer.Start(ctx, name, WithSpanKind(kind), WithAttributes(attrs...))`: a fresh span
is created and attached to the derived context. -/
def tracerStart (ctx : Context) (name : String) (kind : SpanKind) (attrs : List KeyValue)
    (log : Log) : (Context × Span) × Log :=
  let id := nextSpan log
  (({ ctx with span := some id }, some id), log ++ [Event.Start id name kind attrs])

/-- Go `twirp.Error` as the Error hook reads it: `Code()` and `Error()`. -/
structure TwirpError where
  Code : String
  Error : String
  deriving DecidableEq, Repr

/-- Go `propagation.TextMapPropagator` on a header map. -/
structure TextMapPropagator where
  Inject : Context → List (String × String) → List (String × String)
  Extract : Context → List (String × String) → Context

/-- Go `*http.Request` as the package reads it: its context, `RemoteAddr`, the header map,
and the attribute list that `semconv.HTTPClientAttributesFromHTTPRequest` derives from it. -/
structure Request where
  ctx : Context
  RemoteAddr : String
  Header : List (String × String)
  HTTPClientAttributes : List KeyValue
  deriving DecidableEq, Repr

/-- Functions of imported packages whose results the package only passes on. -/
structure Library where
  /-- Go `net.ParseIP(s)` followed by `IP.String()`; `none` when `ParseIP` returns `nil`. -/
  ParseIP : String → Option String
  /-- The twirp function `ServerHTTPStatusFromErrorCode`, on the error-code string. -/
  ServerHTTPStatusFromErrorCode : String → Int

/-! ## `comon.go` -/

def keyRemoteAddr : String := "OteltwirpRemoteAddr"

/-- The first statement of `hostIPNamePort`: host and port part of `net.SplitHostPort`, the
whole input and no port when the split fails. -/
def hostPortParts (hostWithPort : String) : String × String :=
  match SplitHostPort hostWithPort with
  | .ok hp => hp
  | .error _ => (hostWithPort, "")

/-- Go `hostIPNamePort`: extracts the IP address, name and (optional) port from
`hostWithPort`. -/
def hostIPNamePort (L : Library) (hostWithPort : String) : String × String × Int :=
  let (hostPart, portPart) := hostPortParts hostWithPort
  let (ip, name) :=
    match L.ParseIP hostPart with
    | some parsedIP => (parsedIP, "")
    | none => ("", hostPart)
  let port : Int :=
    match ParseUint portPart 10 16 with
    | (parsedPort, none) => (parsedPort : Int)
    | (_, some _) => 0
  (ip, name, port)

/-- Go `spanInfo`: span name and attributes from the context and the peer address. -/
def spanInfo (L : Library) (ctx : Context) (addr : String) : String × List KeyValue :=
  let packageName := ctx.packageName.getD ""
  let serviceName := ctx.serviceName.getD ""
  let methodName := ctx.methodName.getD ""
  let attr := [Key_String semconv.RPCServiceKey serviceName,
    Key_String semconv.RPCMethodKey methodName,
    semconv.NetTransportTCP]
  let spanName := packageName ++ "." ++ serviceName ++ "/" ++ methodName
  let (ip, name, port) := hostIPNamePort L addr
  let attr := if ip ≠ "" then attr ++ [Key_String semconv.NetPeerIPKey ip] else attr
  let attr := if name ≠ "" then attr ++ [Key_String semconv.NetPeerNameKey name] else attr
  let attr := if port ≠ 0 then attr ++ [Key_Int semconv.NetPeerPortKey port] else attr
  (spanName, attr)

/-! ## `config.go` -/

/-- Go `config`: a group of options for this instrumentation. -/
structure config where
  propagator : TextMapPropagator
  tracerProvider : Nat
  includeClientErrors : Bool

/-- Go `optionFunc`, the one implementation of the `Option` interface: `apply` runs the
function on the config. -/
structure optionFunc where
  apply : config → config

/-- Go `newConfig`: a config configured with all the passed options; the two ambient
defaults `otel.GetTextMapPropagator()` and `otel.GetTracerProvider()` are arguments. -/
def newConfig (GetTextMapPropagator : TextMapPropagator) (GetTracerProvider : Nat)
    (opts : List optionFunc) : config :=
  opts.foldl (fun c o => o.apply c) ⟨GetTextMapPropagator, GetTracerProvider, true⟩

/-- Go `WithPropagators`; `none` is a `nil` propagator. -/
def WithPropagators (p : Option TextMapPropagator) : optionFunc :=
  ⟨fun c =>
    match p with
    | some p => { c with propagator := p }
    | none => c⟩

/-- Go `WithTracerProvider`; `none` is a `nil` provider. -/
def WithTracerProvider (tp : Option Nat) : optionFunc :=
  ⟨fun c =>
    match tp with
    | some tp => { c with tracerProvider := tp }
    | none => c⟩

/-- Go `IncludeClientErrors`. -/
def IncludeClientErrors (incl : Bool) : optionFunc :=
  ⟨fun c => { c with includeClientErrors := incl }⟩

/-- A call of one of the three exported option constructors. -/
inductive OptionCall where
  | WithPropagators (p : Option TextMapPropagator)
  | WithTracerProvider (tp : Option Nat)
  | IncludeClientErrors (incl : Bool)

/-- The option value a constructor call returns. -/
def OptionCall.option : OptionCall → optionFunc
  | .WithPropagators p => oteltwirp.WithPropagators p
  | .WithTracerProvider tp => oteltwirp.WithTracerProvider tp
  | .IncludeClientErrors b => oteltwirp.IncludeClientErrors b

/-- The arguments of the `IncludeClientErrors` calls in a list of constructor calls. -/
def includeArgs (calls : List OptionCall) : List Bool :=
  calls.filterMap fun o =>
    match o with
    | .IncludeClientErrors b => some b
    | _ => none

/-! ## `trace_server.go` -/

/-- Go `TraceServerHooks`; the tracer is the log. -/
structure TraceServerHooks where
  includeClientErrors : Bool
  deriving DecidableEq, Repr

/-- Go `TraceServerHooks.startTraceSpan`, the RequestReceived hook. -/
def TraceServerHooks.startTraceSpan (_t : TraceServerHooks) (ctx : Context) (log : Log) :
    (Context × error) × Log :=
  let ((ctx, span), log) := tracerStart ctx rpcEventName .SpanKindServer [] log
  let log := span.call (.AddEvent rpcEventName [RPCMessageTypeReceived]) log
  ((ctx, none), log)

/-- Go `TraceServerHooks.handleRequestRouted`, the RequestRouted hook.  The unchecked type
assertion `ctx.Value(keyRemoteAddr).(string)` panics when the context holds no value under
the key: the result is then `none`. -/
def TraceServerHooks.handleRequestRouted (L : Library) (_t : TraceServerHooks) (ctx : Context)
    (log : Log) : Option ((Context × error) × Log) :=
  match ctx.remoteAddr with
  | none => none
  | some remoteAddr =>
    let (name, attr) := spanInfo L ctx remoteAddr
    let span := SpanFromContext ctx
    let log := span.call (.SetName name) log
    let log := span.call (.SetAttributes attr) log
    some ((ctx, none), log)

/-- Go `twirp.StatusCode`: the recorded status string and whether one was recorded. -/
def twirp.StatusCode (ctx : Context) : String × Bool :=
  (ctx.statusCode.getD "", ctx.statusCode.isSome)

/-- Go `TraceServerHooks.finishTrace`, the ResponseSent hook. -/
def TraceServerHooks.finishTrace (_t : TraceServerHooks) (ctx : Context) (log : Log) : Log :=
  let span := SpanFromContext ctx
  let (status, haveStatus) := twirp.StatusCode ctx
  let (code, err) := Atoi status
  let log :=
    if haveStatus ∧ err ≠ none then
      span.call (.SetAttributes (semconv.HTTPAttributesFromHTTPStatusCode code)) log
    else log
  let log := span.call (.AddEvent rpcEventName [RPCMessageTypeSent]) log
  span.call .End log

/-- Go `TraceServerHooks.handleError`, the Error hook. -/
def TraceServerHooks.handleError (L : Library) (t : TraceServerHooks) (ctx : Context)
    (err : TwirpError) (log : Log) : Context × Log :=
  let span := SpanFromContext ctx
  let statusCode := L.ServerHTTPStatusFromErrorCode err.Code
  let log :=
    if t.includeClientErrors ∨ statusCode ≥ 500 then
      span.call (.SetStatus .Error err.Error) (span.call (.RecordError err.Error) log)
    else log
  (ctx, log)

/-- Go `WithTraceContext`: the request the wrapped handler is served with. -/
def WithTraceContext (cfg : config) (r : Request) : Request :=
  let ctx := cfg.propagator.Extract r.ctx r.Header
  let ctx := { ctx with remoteAddr := some r.RemoteAddr }
  { r with ctx := ctx }

/-- The four hook slots of `twirp.ServerHooks` that `TwirpHooks` fills. -/
inductive Hook where
  | RequestReceived
  | RequestRouted
  | ResponseSent
  | Error (err : TwirpError)
  deriving DecidableEq, Repr

/-- What twirp has stored in the context by the time it calls a hook. -/
structure Metadata where
  packageName : Option String
  serviceName : Option String
  methodName : Option String
  statusCode : Option String
  deriving DecidableEq, Repr

/-- The context twirp hands to a hook: the context returned by the previous hook, with the
metadata recorded so far. -/
def Context.withMetadata (ctx : Context) (m : Metadata) : Context :=
  { ctx with packageName := m.packageName, serviceName := m.serviceName,
             methodName := m.methodName, statusCode := m.statusCode }

/-- One hook call as wired by `TwirpHooks`: the context to carry on and the log, `none` when
the hook panics. -/
def callHook (L : Library) (t : TraceServerHooks) (h : Hook) (m : Metadata)
    (s : Context × Log) : Option (Context × Log) :=
  match h with
  | .RequestReceived =>
    let r := t.startTraceSpan (s.1.withMetadata m) s.2
    some (r.1.1, r.2)
  | .RequestRouted =>
    match t.handleRequestRouted L (s.1.withMetadata m) s.2 with
    | none => none
    | some r => some (r.1.1, r.2)
  | .ResponseSent => some (s.1, t.finishTrace (s.1.withMetadata m) s.2)
  | .Error err => some (t.handleError L (s.1.withMetadata m) err s.2)

/-- A sequence of hook calls of one request, in order. -/
def runHooks (L : Library) (t : TraceServerHooks) :
    List (Hook × Metadata) → Context × Log → Option (Context × Log)
  | [], s => some s
  | (h, m) :: rest, s =>
    match callHook L t h m s with
    | none => none
    | some s1 => runHooks L t rest s1

/-- The hook calls of one request in twirp's order: RequestReceived, then RequestRouted if
routing took place, then Error if the request failed, then ResponseSent if the response was
written; each with the metadata of the context at that call. -/
def hookSequence (received : Metadata) (routed : Option Metadata)
    (failed : Option (TwirpError × Metadata)) (sent : Option Metadata) : List (Hook × Metadata) :=
  [(Hook.RequestReceived, received)] ++
    (match routed with
      | some m => [(Hook.RequestRouted, m)]
      | none => []) ++
    (match failed with
      | some (err, m) => [(Hook.Error err, m)]
      | none => []) ++
    (match sent with
      | some m => [(Hook.ResponseSent, m)]
      | none => [])

/-- Number of `End` calls made on the span handle in a log. -/
def endCount (span : Span) (log : Log) : Nat :=
  log.count (Event.Call span .End)

/-- The name a span carries after the log: the name given at `Start`, replaced by each later
`SetName`. -/
def spanName (id : Nat) : Log → Option String → Option String
  | [], n => n
  | .Start i name _ _ :: rest, n => spanName id rest (if i = id then some name else n)
  | .Call sp (.SetName name) :: rest, n => spanName id rest (if sp = some id then some name else n)
  | _ :: rest, n => spanName id rest n

/-- The method calls made on a span handle in a log, in order. -/
def callsOn (span : Span) (log : Log) : List SpanCall :=
  log.filterMap fun e =>
    match e with
    | .Call sp c => if sp = span then some c else none
    | _ => none

/-! ## `trace_client.go` -/

/-- The body of a transport response (`io.ReadCloser`): `closeResult k` is what its `Close`
returns when it has been called `k` times before. -/
structure ReadCloser where
  id : Nat
  closeResult : Nat → error

/-- The `Close` of a transport response body. -/
def ReadCloser.Close (rc : ReadCloser) (log : Log) : error × Log :=
  (rc.closeResult (log.count (Event.BodyClose rc.id)), log ++ [Event.BodyClose rc.id])

/-- Go `closer`: the embedded `io.ReadCloser` and the span. -/
structure closer where
  ReadCloser : ReadCloser
  span : Span

/-- Go `closer.Close`. -/
def closer.Close (c : closer) (log : Log) : error × Log :=
  let (err, log) := c.ReadCloser.Close log
  let log := c.span.call .End log
  (err, log)

/-- Go `*http.Response` as the package reads it, over the type of its body. -/
structure Response (β : Type) where
  StatusCode : Int
  Body : β

/-- Outcome of `HTTPClient.Do`: `ok resp` when the error is `nil`, otherwise the returned
pair of a possibly `nil` response and the error. -/
abbrev Outcome (β : Type) := Except (Option (Response ReadCloser) × String) (Response β)

/-- Go `TraceHTTPClient`; the tracer is the log. -/
structure TraceHTTPClient where
  client : Request → Outcome ReadCloser
  propagator : TextMapPropagator
  includeClientErrors : Bool

/-- Go `NewTraceHTTPClient` and `configure`, for a non-nil client. -/
def NewTraceHTTPClient (client : Request → Outcome ReadCloser) (cfg : config) : TraceHTTPClient :=
  ⟨client, cfg.propagator, cfg.includeClientErrors⟩

/-- The request `TraceHTTPClient.Do` hands to the wrapped client: trace headers injected and
the context replaced by the one carrying the new span. -/
def TraceHTTPClient.outgoing (c : TraceHTTPClient) (r : Request) (log : Log) : Request :=
  let ctx := { r.ctx with span := some (nextSpan log) }
  { r with Header := c.propagator.Inject ctx r.Header, ctx := ctx }

/-- Go `TraceHTTPClient.Do`. -/
def TraceHTTPClient.Do (L : Library) (c : TraceHTTPClient) (r : Request) (log : Log) :
    Outcome closer × Log :=
  let ctx := r.ctx
  let (name, attr) := spanInfo L ctx r.RemoteAddr
  let attr := attr ++ r.HTTPClientAttributes
  let ((ctx, span), log1) := tracerStart ctx name .SpanKindClient attr log
  let r := { r with Header := c.propagator.Inject ctx r.Header }
  let r := { r with ctx := ctx }
  let log1 := span.call (.AddEvent rpcEventName [RPCMessageTypeSent]) log1
  match c.client r with
  | .error (resp, err) =>
    let log1 := span.call (.RecordError err) log1
    let log1 := span.call (.SetStatus .Error err) log1
    let log1 := span.call .End log1
    (.error (resp, err), log1)
  | .ok resp =>
    -- Check for error codes greater than 400 if withUserErr is set and codes
    -- greater than 500 if not, and mark the span as an error if appropriate.
    let log1 :=
      if resp.StatusCode ≥ 400 ∧ c.includeClientErrors ∨ resp.StatusCode ≥ 500 then
        span.call (.SetStatus .Error "") log1
      else log1
    let log1 := span.call (.SetAttributes (semconv.HTTPAttributesFromHTTPStatusCode resp.StatusCode)) log1
    (.ok { StatusCode := resp.StatusCode, Body := { ReadCloser := resp.Body, span := span } }, log1)

/-- The events an operation appended: what `after` holds beyond `before`. -/
def eventsSince (before after : Log) : Log :=
  after.drop before.length

/-- Whether a `SetStatus(codes.Error, _)` call was made on the span handle in a log. -/
def markedError (span : Span) (log : Log) : Bool :=
  (callsOn span log).any fun c =>
    match c with
    | .SetStatus .Error _ => true
    | _ => false

/-- The log after `n` successive calls of `closer.Close`. -/
def closeTimes (c : closer) : Nat → Log → Log
  | 0, log => log
  | n + 1, log => closeTimes c n (c.Close log).2

/-! ## The imported functions, as shipped with current Go and twirp -/

/-- The octet loop of Go `netip.parseIPv4Fields`: `prev` is the byte before the current one,
`fields` the octets completed so far. -/
def parseIPv4Fields : List Char → Option Char → Nat → Nat → List Nat → Option (List Nat)
  | [], _, val, _, fields => if fields.length < 3 then none else some (fields ++ [val])
  | c :: cs, prev, val, digLen, fields =>
    if '0' ≤ c ∧ c ≤ '9' then
      if digLen = 1 ∧ val = 0 then none
      else if val * 10 + (c.toNat - '0'.toNat) > 255 then none
      else parseIPv4Fields cs (some c) (val * 10 + (c.toNat - '0'.toNat)) (digLen + 1) fields
    else if c = '.' then
      if prev = none ∨ cs = [] ∨ prev = some '.' then none
      else if fields.length = 3 then none
      else parseIPv4Fields cs (some c) 0 0 (fields ++ [val])
    else none

/-- Value of a hexadecimal digit. -/
def hexVal (c : Char) : Option Nat :=
  if '0' ≤ c ∧ c ≤ '9' then some (c.toNat - '0'.toNat)
  else if 'a' ≤ c ∧ c ≤ 'f' then some (c.toNat - 'a'.toNat + 10)
  else if 'A' ≤ c ∧ c ≤ 'F' then some (c.toNat - 'A'.toNat + 10)
  else none

/-- The group loop of Go `netip.parseIPv6` (no zone): `s` is the unread text, `ip` the bytes
written so far (`i = ip.length`), `ellipsis` the position of `::`.  Each round writes two
bytes, so nine rounds of fuel cover the sixteen bytes. -/
def parseIPv6Loop : Nat → List Char → List Nat → Option Nat →
    Option (List Char × List Nat × Option Nat)
  | 0, _, _, _ => none
  | fuel + 1, s, ip, ellipsis =>
    if ip.length ≥ 16 then some (s, ip, ellipsis)
    else
      let digits := s.takeWhile fun c => (hexVal c).isSome
      let rest := s.dropWhile fun c => (hexVal c).isSome
      let acc := digits.foldl (fun a c => a * 16 + (hexVal c).getD 0) 0
      if digits.length = 0 ∨ digits.length > 4 then none
      else if rest.head? = some '.' then
        -- trailing IPv4
        if ellipsis = none ∧ ip.length ≠ 12 then none
        else if ip.length + 4 > 16 then none
        else
          match parseIPv4Fields s none 0 0 [] with
          | none => none
          | some f => some ([], ip ++ f, ellipsis)
      else
        match rest with
        | [] => some ([], ip ++ [acc / 256, acc % 256], ellipsis)
        | c :: rest1 =>
          if c ≠ ':' then none
          else
            match rest1 with
            | [] => none
            | c1 :: rest2 =>
              if c1 = ':' then
                if ellipsis.isSome then none
                else if rest2 = [] then
                  some ([], ip ++ [acc / 256, acc % 256], some (ip.length + 2))
                else
                  parseIPv6Loop fuel rest2 (ip ++ [acc / 256, acc % 256]) (some (ip.length + 2))
              else parseIPv6Loop fuel rest1 (ip ++ [acc / 256, acc % 256]) ellipsis

/-- Go `netip.parseIPv6` as `net.ParseIP` uses it: a text with a zone (`%`) is refused. -/
def parseIPv6 (s : List Char) : Option (List Nat) :=
  if s.contains '%' then none
  else
    let start : List Char × Option Nat :=
      match s with
      | ':' :: ':' :: t => (t, some 0)
      | _ => (s, none)
    if start.2.isSome ∧ start.1 = [] then some (List.replicate 16 0)
    else
      match parseIPv6Loop 9 start.1 [] start.2 with
      | none => none
      | some (s1, ip, ellipsis) =>
        if s1 ≠ [] then none
        else if ip.length < 16 then
          match ellipsis with
          | none => none
          | some e => some (ip.take e ++ List.replicate (16 - ip.length) 0 ++ ip.drop e)
        else if ellipsis.isSome then none
        else some ip

/-- Go `net.ParseIP`: the sixteen bytes of the address, `none` for `nil`.  The first of
`.`, `:` and `%` in the text selects the parser; an IPv4 address is stored IPv4-mapped. -/
def parseIPBytes (s : List Char) : Option (List Nat) :=
  match s.find? fun c => c = '.' ∨ c = ':' ∨ c = '%' with
  | some '.' =>
    (parseIPv4Fields s none 0 0 []).map fun f => List.replicate 10 0 ++ [255, 255] ++ f
  | some ':' => parseIPv6 s
  | _ => none

/-- Lower-case hexadecimal digits of a 16-bit group, without leading zeros. -/
def appendHex (n : Nat) : List Char := Nat.toDigits 16 n

/-- The output loop of Go `netip.Addr.string6`: groups `g`, the elided zero run
`[zeroStart, zeroEnd)`, current index `i`. -/
def string6Loop (g : List Nat) (zeroStart zeroEnd : Nat) : Nat → Nat → List Char
  | 0, _ => []
  | fuel + 1, i =>
    if i ≥ 8 then []
    else if i = zeroStart then
      if zeroEnd ≥ 8 then [':', ':']
      else [':', ':'] ++ appendHex (g.getD zeroEnd 0) ++
        string6Loop g zeroStart zeroEnd fuel (zeroEnd + 1)
    else
      (if i > 0 then [':'] else []) ++ appendHex (g.getD i 0) ++
        string6Loop g zeroStart zeroEnd fuel (i + 1)

/-- Go `net.IP.String` on a sixteen-byte address: dotted decimal when the address is
IPv4-mapped (`To4`), otherwise the canonical IPv6 text with the first longest run of two or
more zero groups elided. -/
def ipString (ip : List Nat) : List Char :=
  if ip.take 10 = List.replicate 10 0 ∧ ip.getD 10 0 = 255 ∧ ip.getD 11 0 = 255 then
    Nat.toDigits 10 (ip.getD 12 0) ++ ['.'] ++ Nat.toDigits 10 (ip.getD 13 0) ++ ['.'] ++
      Nat.toDigits 10 (ip.getD 14 0) ++ ['.'] ++ Nat.toDigits 10 (ip.getD 15 0)
  else
    let g := (List.range 8).map fun k => ip.getD (2 * k) 0 * 256 + ip.getD (2 * k + 1) 0
    let best := (List.range 8).foldl
      (fun (b : Nat × Nat) i =>
        let l := ((g.drop i).takeWhile fun x => x = 0).length
        if l ≥ 2 ∧ l > b.2 - b.1 then (i, i + l) else b)
      (255, 255)
    string6Loop g best.1 best.2 9 0

/-- Go `net.ParseIP(s)` followed by `IP.String()`. -/
def ParseIP (s : String) : Option String :=
  (parseIPBytes s.toList).map fun ip => String.mk (ipString ip)

/-- The twirp function `ServerHTTPStatusFromErrorCode` (twirp v8 table), on the error-code
string; unknown codes map to 0. -/
def ServerHTTPStatusFromErrorCode (code : String) : Int :=
  if code = "canceled" then 408
  else if code = "unknown" then 500
  else if code = "invalid_argument" then 400
  else if code = "malformed" then 400
  else if code = "deadline_exceeded" then 408
  else if code = "not_found" then 404
  else if code = "bad_route" then 404
  else if code = "already_exists" then 409
  else if code = "permission_denied" then 403
  else if code = "unauthenticated" then 401
  else if code = "resource_exhausted" then 429
  else if code = "failed_precondition" then 412
  else if code = "aborted" then 409
  else if code = "out_of_range" then 400
  else if code = "unimplemented" then 501
  else if code = "internal" then 500
  else if code = "unavailable" then 503
  else if code = "dataloss" then 500
  else if code = "" then 200
  else 0

/-- The imported functions of the Go toolchain and of twirp. -/
def goLibrary : Library :=
  ⟨ParseIP, ServerHTTPStatusFromErrorCode⟩

/-! ## Concrete values for the closed statements -/

/-- A transport that answers every request with the given status code and a body whose
`Close` returns the given result. -/
def fixedTransport (status : Int) (closeResult : error) : Request → Outcome ReadCloser :=
  fun _ => .ok ⟨status, ⟨7, fun _ => closeResult⟩⟩

/-- A propagator that leaves headers and contexts as they are. -/
def idPropagator : TextMapPropagator :=
  ⟨fun _ h => h, fun ctx _ => ctx⟩

/-- A client request on `context.Background()`. -/
def plainRequest : Request :=
  ⟨Context.Background, "", [], []⟩

/-- A client wrapper without client errors over a transport answering 404. -/
def client404 : TraceHTTPClient :=
  ⟨fixedTransport 404 (some "close failed"), idPropagator, false⟩

/-- The 404 response of `fixedTransport`. -/
def response404 : Response ReadCloser :=
  ⟨404, ⟨7, fun _ => some "close failed"⟩⟩

/-- Metadata of a context in which twirp has recorded nothing yet. -/
def noMetadata : Metadata :=
  ⟨none, none, none, none⟩

/-- Metadata after routing of `pkg.Svc/Method`. -/
def routedMetadata : Metadata :=
  ⟨some "pkg", some "Svc", some "Method", none⟩

/-- Metadata after the response `200` was written. -/
def sentMetadata : Metadata :=
  ⟨some "pkg", some "Svc", some "Method", some "200"⟩

/-- The context `WithTraceContext` builds for a request from `10.0.0.5:8080`. -/
def servedContext : Context :=
  (WithTraceContext (newConfig idPropagator 0 [])
    ⟨Context.Background, "10.0.0.5:8080", [], []⟩).ctx

/-! ## Theorems -/

/-- The embedded library functions on sample inputs, as the Go functions answer them. -/
theorem library_samples :
    ParseIP "10.0.0.5" = some "10.0.0.5" ∧
    ParseIP "" = none ∧
    ParseIP "localhost" = none ∧
    ParseIP "010.0.0.5" = none ∧
    ParseIP "1.2.3" = none ∧
    ParseIP "1.2.3.4.5" = none ∧
    ParseIP "::1" = some "::1" ∧
    ParseIP "::" = some "::" ∧
    ParseIP "2001:DB8:0:0:1:0:0:1" = some "2001:db8::1:0:0:1" ∧
    ParseIP "::ffff:1.2.3.4" = some "1.2.3.4" ∧
    ParseIP "1:2:3:4:5:6:7:8" = some "1:2:3:4:5:6:7:8" ∧
    ParseIP "1:2:3:4:5:6:7::" = some "1:2:3:4:5:6:7:0" ∧
    ParseIP "1::8" = some "1::8" ∧
    ParseIP "fe80::1%eth0" = none ∧
    ParseIP "1:2:3:4:5:6:7" = none ∧
    ParseIP "0:0:1::" = some "0:0:1::" ∧
    hostIPNamePort goLibrary "10.0.0.5:8080" = ("10.0.0.5", "", 8080) ∧
    hostIPNamePort goLibrary "[::1]:80" = ("::1", "", 80) ∧
    hostIPNamePort goLibrary ":8080" = ("", "", 8080) ∧
    hostIPNamePort goLibrary "example.com" = ("", "example.com", 0) ∧
    SplitHostPort "10.0.0.5:8080" = .ok ("10.0.0.5", "8080") ∧
    SplitHostPort ":8080" = .ok ("", "8080") ∧
    SplitHostPort "[::1]:80" = .ok ("::1", "80") ∧
    SplitHostPort "localhost" = .error "missing port in address" ∧
    SplitHostPort "" = .error "missing port in address" ∧
    ParseUint "8080" 10 16 = (8080, none) ∧
    ParseUint "65536" 10 16 = (65535, some .ErrRange) ∧
    Atoi "200" = (200, none) ∧
    Atoi "-12" = (-12, none) ∧
    Atoi "abc" = (0, some .ErrSyntax) := by
  repeat' apply And.intro
  all_goals first | decide | rfl

theorem toDigitsCore_ne_nil (b : Nat) : ∀ (fuel n : Nat) (ds : List Char),
    (0 < fuel ∨ ds ≠ []) → Nat.toDigitsCore b fuel n ds ≠ [] := by
  intro fuel
  induction fuel with
  | zero =>
    intro n ds h
    rcases h with h | h
    · omega
    · simpa [Nat.toDigitsCore] using h
  | succ k ih =>
    intro n ds _
    simp only [Nat.toDigitsCore]
    split
    · simp
    · exact ih _ _ (Or.inr (by simp))

theorem toDigits_ne_nil (b n : Nat) : Nat.toDigits b n ≠ [] :=
  toDigitsCore_ne_nil b (n + 1) n [] (Or.inl (by omega))

theorem string6Loop_ne_nil (g : List Nat) (zs ze fuel : Nat) :
    string6Loop g zs ze (fuel + 1) 0 ≠ [] := by
  rw [string6Loop]
  split
  · omega
  · split
    · split <;> simp
    · simp [appendHex, toDigits_ne_nil]

theorem ipString_ne_nil (ip : List Nat) : ipString ip ≠ [] := by
  unfold ipString
  split
  · simp only [ne_eq, List.append_eq_nil, reduceCtorEq, and_false, false_and,
      not_false_eq_true]
  · exact string6Loop_ne_nil _ _ _ 8

theorem ParseIP_ne_empty (h r : String) (hp : ParseIP h = some r) : r ≠ "" := by
  unfold ParseIP at hp
  cases hb : parseIPBytes h.toList with
  | none => rw [hb] at hp; cases hp
  | some ip =>
    rw [hb] at hp
    simp only [Option.map_some', Option.some.injEq] at hp
    subst hp
    intro hcontra
    have := congrArg String.data hcontra
    exact ipString_ne_nil ip this

/-- C1 (the code at the failing input): a request from `10.0.0.5:8080` is received, routed
to `pkg.Svc/Method` and answered with the recorded status code "200", which `Atoi` parses
without error.  `finishTrace` then records the "message sent" event and ends the span
without setting the HTTP status-code attribute: the only `SetAttributes` call on the span is
the one of `handleRequestRouted`.  The attribute is set only when the status string does not
parse, as for "abc", and then with the code 0. -/
theorem finishTrace_parsed_status_not_set :
    Atoi "200" = (200, none) ∧
    (runHooks goLibrary ⟨true⟩
        (hookSequence noMetadata (some routedMetadata) none (some sentMetadata))
        (servedContext, [])).map (fun s => s.2) =
      some [Event.Start 0 "message" .SpanKindServer [],
        Event.Call (some 0) (.AddEvent "message" [RPCMessageTypeReceived]),
        Event.Call (some 0) (.SetName "pkg.Svc/Method"),
        Event.Call (some 0) (.SetAttributes
          [Key_String "rpc.service" "Svc", Key_String "rpc.method" "Method",
           Key_String "net.transport" "ip_tcp", Key_String "net.peer.ip" "10.0.0.5",
           Key_Int "net.peer.port" 8080]),
        Event.Call (some 0) (.AddEvent "message" [RPCMessageTypeSent]),
        Event.Call (some 0) .End] ∧
    TraceServerHooks.finishTrace ⟨true⟩
        { Context.Background with span := some 0, statusCode := some "200" } [] =
      [Event.Call (some 0) (.AddEvent rpcEventName [RPCMessageTypeSent]),
       Event.Call (some 0) .End] ∧
    SpanCall.SetAttributes (semconv.HTTPAttributesFromHTTPStatusCode 200) ∉
      callsOn (some 0) (TraceServerHooks.finishTrace ⟨true⟩
        { Context.Background with span := some 0, statusCode := some "200" } []) ∧
    TraceServerHooks.finishTrace ⟨true⟩
        { Context.Background with span := some 0, statusCode := some "abc" } [] =
      [Event.Call (some 0) (.SetAttributes [Key_Int "http.status_code" 0]),
       Event.Call (some 0) (.AddEvent rpcEventName [RPCMessageTypeSent]),
       Event.Call (some 0) .End] := by
  decide

/-- C10 (the code at the failing input): on `context.Background()`, which holds no value
under `keyRemoteAddr`, `handleRequestRouted` panics instead of returning the context and a
nil error, and so does the hook sequence of a request that did not pass through
`WithTraceContext`; on a context that holds the remote address the hook returns the input
context and a nil error. -/
theorem handleRequestRouted_panics_without_remoteAddr :
    TraceServerHooks.handleRequestRouted goLibrary ⟨true⟩ Context.Background [] = none ∧
    runHooks goLibrary ⟨true⟩
      (hookSequence noMetadata (some routedMetadata) none (some sentMetadata))
      (Context.Background, []) = none ∧
    (TraceServerHooks.handleRequestRouted goLibrary ⟨true⟩
        { Context.Background with remoteAddr := some "10.0.0.5:8080" } []).map
      (fun r => r.1) =
      some ({ Context.Background with remoteAddr := some "10.0.0.5:8080" }, none) := by
  decide

/-- C3: for every framework error and every value of the include-client-errors flag,
`handleError` returns the input context and appends, when the flag is true or the mapped HTTP
status is at least 500, exactly the calls `RecordError` and `SetStatus(Error, err.Error())`
on the span of the context, and nothing otherwise; so the error is recorded and the status set
to Error if and only if the flag is true or the mapped status is at least 500.  With the flag
false and the twirp table, `not_found` (404) makes no call on the span and `unavailable` (503)
records the error and sets the status to Error. -/
theorem handleError_spec (L : Library) (t : TraceServerHooks) (ctx : Context)
    (err : TwirpError) (log : Log) (msg : String) :
    (t.handleError L ctx err log).1 = ctx ∧
    (t.handleError L ctx err log).2 = log ++
      (if t.includeClientErrors = true ∨ L.ServerHTTPStatusFromErrorCode err.Code ≥ 500 then
        [Event.Call ctx.span (.RecordError err.Error),
         Event.Call ctx.span (.SetStatus .Error err.Error)]
       else []) ∧
    ((SpanCall.RecordError err.Error ∈
          callsOn ctx.span (eventsSince log (t.handleError L ctx err log).2) ∧
        SpanCall.SetStatus .Error err.Error ∈
          callsOn ctx.span (eventsSince log (t.handleError L ctx err log).2)) ↔
      (t.includeClientErrors = true ∨ L.ServerHTTPStatusFromErrorCode err.Code ≥ 500)) ∧
    (t.includeClientErrors = true ∨ L.ServerHTTPStatusFromErrorCode err.Code ≥ 500 ∨
      callsOn ctx.span (eventsSince log (t.handleError L ctx err log).2) = []) ∧
    goLibrary.ServerHTTPStatusFromErrorCode "not_found" = 404 ∧
    callsOn ctx.span (eventsSince log
      (TraceServerHooks.handleError goLibrary ⟨false⟩ ctx ⟨"not_found", msg⟩ log).2) = [] ∧
    goLibrary.ServerHTTPStatusFromErrorCode "unavailable" = 503 ∧
    callsOn ctx.span (eventsSince log
      (TraceServerHooks.handleError goLibrary ⟨false⟩ ctx ⟨"unavailable", msg⟩ log).2) =
      [.RecordError msg, .SetStatus .Error msg] := by
  refine ⟨rfl, ?_, ?_, ?_, by decide, ?_, by decide, ?_⟩
  · by_cases h : t.includeClientErrors = true ∨ L.ServerHTTPStatusFromErrorCode err.Code ≥ 500
    · simp [TraceServerHooks.handleError, h, Span.call, SpanFromContext]
    · simp [TraceServerHooks.handleError, h, Span.call, SpanFromContext]
  · by_cases h : t.includeClientErrors = true ∨ L.ServerHTTPStatusFromErrorCode err.Code ≥ 500
    · simp [TraceServerHooks.handleError, h, Span.call, SpanFromContext, eventsSince, callsOn]
    · simp [TraceServerHooks.handleError, h, Span.call, SpanFromContext, eventsSince, callsOn]
  · by_cases h : t.includeClientErrors = true ∨ L.ServerHTTPStatusFromErrorCode err.Code ≥ 500
    · rcases h with h | h
      · exact Or.inl h
      · exact Or.inr (Or.inl h)
    · right; right
      simp [TraceServerHooks.handleError, h, Span.call, SpanFromContext, eventsSince, callsOn]
  · have h : goLibrary.ServerHTTPStatusFromErrorCode "not_found" = 404 := by decide
    simp [TraceServerHooks.handleError, h, eventsSince, callsOn]
  · have h : goLibrary.ServerHTTPStatusFromErrorCode "unavailable" = 503 := by decide
    simp [TraceServerHooks.handleError, h, Span.call, SpanFromContext, eventsSince, callsOn]

theorem foldl_includeClientErrors (calls : List OptionCall) : ∀ c : config,
    ((calls.map OptionCall.option).foldl (fun c o => o.apply c) c).includeClientErrors =
      (includeArgs calls).getLast?.getD c.includeClientErrors := by
  induction calls with
  | nil => intro c; rfl
  | cons o rest ih =>
    intro c
    simp only [List.map_cons, List.foldl_cons]
    rw [ih]
    cases o with
    | WithPropagators p =>
      cases p <;> simp [includeArgs, OptionCall.option, WithPropagators]
    | WithTracerProvider tp =>
      cases tp <;> simp [includeArgs, OptionCall.option, WithTracerProvider]
    | IncludeClientErrors b =>
      simp only [includeArgs, OptionCall.option, IncludeClientErrors, List.filterMap_cons]
      cases h : (List.filterMap (fun o => match o with
        | OptionCall.IncludeClientErrors b => some b
        | _ => none) rest) with
      | nil => simp
      | cons x xs =>
        obtain ⟨y, hy⟩ : ∃ y, (x :: xs).getLast? = some y :=
          ⟨_, List.getLast?_eq_getLast _ (List.cons_ne_nil x xs)⟩
        simp [hy]

/-- C6: `newConfig` starts from the defaults (ambient propagator and provider, flag true) and
applies the options in list order, each on the config the earlier ones produced; for every
list of calls of the three option constructors the resulting include-client-errors flag is the
argument of the last `IncludeClientErrors` call in the list, and true when there is none;
`WithPropagators(nil)` and `WithTracerProvider(nil)` return every config unchanged. -/
theorem newConfig_spec (p0 : TextMapPropagator) (t0 : Nat) (calls : List OptionCall) :
    newConfig p0 t0 [] = ⟨p0, t0, true⟩ ∧
    (∀ (opts : List optionFunc) (o : optionFunc),
      newConfig p0 t0 (opts ++ [o]) = o.apply (newConfig p0 t0 opts)) ∧
    (newConfig p0 t0 (calls.map OptionCall.option)).includeClientErrors =
      (includeArgs calls).getLast?.getD true ∧
    (∀ c : config, (WithPropagators none).apply c = c) ∧
    (∀ c : config, (WithTracerProvider none).apply c = c) := by
  refine ⟨rfl, ?_, ?_, fun _ => rfl, fun _ => rfl⟩
  · intro opts o
    simp [newConfig, List.foldl_append]
  · exact foldl_includeClientErrors calls _

theorem spanInfo_attrs (L : Library) (ctx : Context) (a : String) :
    (spanInfo L ctx a).2 =
      [Key_String semconv.RPCServiceKey (ctx.serviceName.getD ""),
        Key_String semconv.RPCMethodKey (ctx.methodName.getD ""),
        semconv.NetTransportTCP] ++
      (if (hostIPNamePort L a).1 ≠ "" then
        [Key_String semconv.NetPeerIPKey (hostIPNamePort L a).1] else []) ++
      (if (hostIPNamePort L a).2.1 ≠ "" then
        [Key_String semconv.NetPeerNameKey (hostIPNamePort L a).2.1] else []) ++
      (if (hostIPNamePort L a).2.2 ≠ 0 then
        [Key_Int semconv.NetPeerPortKey (hostIPNamePort L a).2.2] else []) := by
  simp only [spanInfo]
  split_ifs <;> simp

/-- C7: for every package name `p`, service name `s`, method name `m` and peer address `a`,
`spanInfo` returns the name `p.s/m` and the attribute list made of RPC service `s`, RPC
method `m` and transport TCP, followed by the peer-IP attribute exactly when the parsed ip is
non-empty, the peer-name attribute exactly when the parsed name is non-empty and the peer-port
attribute exactly when the parsed port is non-zero; no key occurs twice.  For "pkg", "Svc",
"Method" and "10.0.0.5:8080" the name is "pkg.Svc/Method" and the attributes include peer IP
"10.0.0.5" and peer port 8080, and the span of a request received, routed and answered with
these values is named "pkg.Svc/Method" at the end. -/
theorem spanInfo_spec (L : Library) (ctx : Context) (p s m a : String) :
    (spanInfo L { ctx with packageName := some p, serviceName := some s,
                           methodName := some m } a).1 = p ++ "." ++ s ++ "/" ++ m ∧
    (spanInfo L { ctx with packageName := some p, serviceName := some s,
                           methodName := some m } a).2 =
      [Key_String semconv.RPCServiceKey s, Key_String semconv.RPCMethodKey m,
        semconv.NetTransportTCP] ++
      (if (hostIPNamePort L a).1 ≠ "" then
        [Key_String semconv.NetPeerIPKey (hostIPNamePort L a).1] else []) ++
      (if (hostIPNamePort L a).2.1 ≠ "" then
        [Key_String semconv.NetPeerNameKey (hostIPNamePort L a).2.1] else []) ++
      (if (hostIPNamePort L a).2.2 ≠ 0 then
        [Key_Int semconv.NetPeerPortKey (hostIPNamePort L a).2.2] else []) ∧
    ((spanInfo L { ctx with packageName := some p, serviceName := some s,
                            methodName := some m } a).2.map KeyValue.Key).Nodup ∧
    spanInfo goLibrary { Context.Background with packageName := some "pkg",
                                                 serviceName := some "Svc",
                                                 methodName := some "Method" }
        "10.0.0.5:8080" =
      ("pkg.Svc/Method",
        [Key_String semconv.RPCServiceKey "Svc", Key_String semconv.RPCMethodKey "Method",
         semconv.NetTransportTCP, Key_String semconv.NetPeerIPKey "10.0.0.5",
         Key_Int semconv.NetPeerPortKey 8080]) ∧
    (runHooks goLibrary ⟨true⟩
        (hookSequence noMetadata (some routedMetadata) none (some sentMetadata))
        (servedContext, [])).map (fun st => spanName 0 st.2 none) =
      some (some "pkg.Svc/Method") := by
  refine ⟨rfl, spanInfo_attrs L _ a, ?_, by decide, by decide⟩
  rw [spanInfo_attrs]
  split_ifs <;>
    simp [Key_String, Key_Int, semconv.NetTransportTCP, semconv.RPCServiceKey,
      semconv.RPCMethodKey, semconv.NetTransportKey, semconv.NetPeerIPKey,
      semconv.NetPeerNameKey, semconv.NetPeerPortKey]

theorem eventsSince_append (log evs : Log) : eventsSince log (log ++ evs) = evs := by
  simp [eventsSince]

theorem Do_eq (L : Library) (c : TraceHTTPClient) (r : Request) (log : Log) :
    c.Do L r log =
      match c.client (c.outgoing r log) with
      | .error (resp, err) =>
        (.error (resp, err), log ++
          [Event.Start (nextSpan log) (spanInfo L r.ctx r.RemoteAddr).1 .SpanKindClient
              ((spanInfo L r.ctx r.RemoteAddr).2 ++ r.HTTPClientAttributes),
           Event.Call (some (nextSpan log)) (.AddEvent rpcEventName [RPCMessageTypeSent]),
           Event.Call (some (nextSpan log)) (.RecordError err),
           Event.Call (some (nextSpan log)) (.SetStatus .Error err),
           Event.Call (some (nextSpan log)) .End])
      | .ok resp =>
        (.ok { StatusCode := resp.StatusCode,
               Body := { ReadCloser := resp.Body, span := some (nextSpan log) } },
          log ++
          [Event.Start (nextSpan log) (spanInfo L r.ctx r.RemoteAddr).1 .SpanKindClient
              ((spanInfo L r.ctx r.RemoteAddr).2 ++ r.HTTPClientAttributes),
           Event.Call (some (nextSpan log)) (.AddEvent rpcEventName [RPCMessageTypeSent])] ++
          (if resp.StatusCode ≥ 500 ∨ (c.includeClientErrors = true ∧ resp.StatusCode ≥ 400)
            then [Event.Call (some (nextSpan log)) (.SetStatus .Error "")] else []) ++
          [Event.Call (some (nextSpan log))
            (.SetAttributes (semconv.HTTPAttributesFromHTTPStatusCode resp.StatusCode))]) := by
  unfold TraceHTTPClient.Do
  simp only [tracerStart, Span.call]
  show (match c.client (c.outgoing r log) with
    | .error (resp, err) => _
    | .ok resp => _) = _
  cases c.client (c.outgoing r log) with
  | error e => simp
  | ok resp =>
    by_cases h : resp.StatusCode ≥ 500 ∨ (c.includeClientErrors = true ∧ resp.StatusCode ≥ 400)
    · have h' : resp.StatusCode ≥ 400 ∧ c.includeClientErrors = true ∨ resp.StatusCode ≥ 500 := by
        rcases h with h | ⟨h1, h2⟩
        · exact Or.inr h
        · exact Or.inl ⟨h2, h1⟩
      simp [h, h']
    · have h' : ¬ (resp.StatusCode ≥ 400 ∧ c.includeClientErrors = true ∨
          resp.StatusCode ≥ 500) := by
        intro hc
        apply h
        rcases hc with ⟨h1, h2⟩ | h1
        · exact Or.inr ⟨h2, h1⟩
        · exact Or.inl h1
      simp [h, h']

/-- C4: when the wrapped client returns a response with status code `s` and no error,
`TraceHTTPClient.Do` starts the client span, records the "message sent" event, calls
`SetStatus(Error, "")` if and only if `s >= 500`, or the include-client-errors flag is true
and `s >= 400`, and then sets the HTTP status attribute for `s` in every case; so status 404
marks the span errored exactly when the flag is true and status 500 marks it errored for both
flag values. -/
theorem Do_status_spec (L : Library) (c : TraceHTTPClient) (r : Request) (log : Log)
    (resp : Response ReadCloser) (h : c.client (c.outgoing r log) = .ok resp) :
    (c.Do L r log).2 = log ++
      [Event.Start (nextSpan log) (spanInfo L r.ctx r.RemoteAddr).1 .SpanKindClient
          ((spanInfo L r.ctx r.RemoteAddr).2 ++ r.HTTPClientAttributes),
       Event.Call (some (nextSpan log)) (.AddEvent rpcEventName [RPCMessageTypeSent])] ++
      (if resp.StatusCode ≥ 500 ∨ (c.includeClientErrors = true ∧ resp.StatusCode ≥ 400)
        then [Event.Call (some (nextSpan log)) (.SetStatus .Error "")] else []) ++
      [Event.Call (some (nextSpan log))
        (.SetAttributes (semconv.HTTPAttributesFromHTTPStatusCode resp.StatusCode))] ∧
    (markedError (some (nextSpan log)) (eventsSince log (c.Do L r log).2) = true ↔
      (resp.StatusCode ≥ 500 ∨ (c.includeClientErrors = true ∧ resp.StatusCode ≥ 400))) ∧
    SpanCall.SetAttributes (semconv.HTTPAttributesFromHTTPStatusCode resp.StatusCode) ∈
      callsOn (some (nextSpan log)) (eventsSince log (c.Do L r log).2) ∧
    (resp.StatusCode = 404 →
      (markedError (some (nextSpan log)) (eventsSince log (c.Do L r log).2) = true ↔
        c.includeClientErrors = true)) ∧
    (resp.StatusCode = 500 →
      markedError (some (nextSpan log)) (eventsSince log (c.Do L r log).2) = true) := by
  have hlog : (c.Do L r log).2 = log ++
      ([Event.Start (nextSpan log) (spanInfo L r.ctx r.RemoteAddr).1 .SpanKindClient
          ((spanInfo L r.ctx r.RemoteAddr).2 ++ r.HTTPClientAttributes),
       Event.Call (some (nextSpan log)) (.AddEvent rpcEventName [RPCMessageTypeSent])] ++
      (if resp.StatusCode ≥ 500 ∨ (c.includeClientErrors = true ∧ resp.StatusCode ≥ 400)
        then [Event.Call (some (nextSpan log)) (.SetStatus .Error "")] else []) ++
      [Event.Call (some (nextSpan log))
        (.SetAttributes (semconv.HTTPAttributesFromHTTPStatusCode resp.StatusCode))]) := by
    rw [Do_eq, h]
    simp
  have hiff : markedError (some (nextSpan log)) (eventsSince log (c.Do L r log).2) = true ↔
      (resp.StatusCode ≥ 500 ∨ (c.includeClientErrors = true ∧ resp.StatusCode ≥ 400)) := by
    rw [hlog, eventsSince_append]
    by_cases hc : resp.StatusCode ≥ 500 ∨ (c.includeClientErrors = true ∧ resp.StatusCode ≥ 400)
    · simp [hc, markedError, callsOn]
    · simp [hc, markedError, callsOn]
  refine ⟨?_, hiff, ?_, ?_, ?_⟩
  · rw [hlog]; simp
  · rw [hlog, eventsSince_append]
    by_cases hc : resp.StatusCode ≥ 500 ∨ (c.includeClientErrors = true ∧ resp.StatusCode ≥ 400)
    · simp [hc, callsOn]
    · simp [hc, callsOn]
  · intro h404
    rw [hiff, h404]
    constructor
    · rintro (h1 | ⟨h1, _⟩)
      · omega
      · exact h1
    · intro h1
      exact Or.inr ⟨h1, by omega⟩
  · intro h500
    rw [hiff, h500]
    exact Or.inl (le_refl _)

/-- C5: the body of the response that a successful `TraceHTTPClient.Do` returns wraps the
transport body and the span started by `Do`; `Do` itself makes no `End` call on that span;
and one call of `Close` on it, in any later state, first closes the transport body and then
calls `End` on the span once, whatever the transport body's `Close` returns, and returns
exactly that result. -/
theorem closer_Close_spec (L : Library) (c : TraceHTTPClient) (r : Request) (log : Log)
    (resp : Response ReadCloser) (h : c.client (c.outgoing r log) = .ok resp) :
    (c.Do L r log).1 = .ok { StatusCode := resp.StatusCode,
                             Body := { ReadCloser := resp.Body,
                                       span := some (nextSpan log) } } ∧
    endCount (some (nextSpan log)) (eventsSince log (c.Do L r log).2) = 0 ∧
    ∀ later : Log,
      closer.Close { ReadCloser := resp.Body, span := some (nextSpan log) } later =
        ((resp.Body.Close later).1,
          later ++ [Event.BodyClose resp.Body.id, Event.Call (some (nextSpan log)) .End]) ∧
      (resp.Body.Close later).1 =
        resp.Body.closeResult (later.count (Event.BodyClose resp.Body.id)) ∧
      endCount (some (nextSpan log)) (eventsSince later
        (closer.Close { ReadCloser := resp.Body, span := some (nextSpan log) } later).2) = 1 := by
  refine ⟨?_, ?_, ?_⟩
  · rw [Do_eq, h]
  · rw [Do_eq, h]
    simp only [List.append_assoc, eventsSince_append]
    by_cases hc : resp.StatusCode ≥ 500 ∨ (c.includeClientErrors = true ∧ resp.StatusCode ≥ 400)
    · simp [hc, endCount]
    · simp [hc, endCount]
  · intro later
    refine ⟨?_, rfl, ?_⟩
    · simp [closer.Close, ReadCloser.Close, Span.call]
    · simp [closer.Close, ReadCloser.Close, Span.call, eventsSince, endCount]

theorem closeTimes_log (c : closer) : ∀ (n : Nat) (log : Log),
    closeTimes c n log =
      log ++ (List.replicate n [Event.BodyClose c.ReadCloser.id, Event.Call c.span .End]).flatten := by
  intro n
  induction n with
  | zero => intro log; simp [closeTimes]
  | succ k ih =>
    intro log
    simp [closeTimes, ih, closer.Close, ReadCloser.Close, Span.call, List.replicate_succ]

/-- C9 (as amended): for the body of the response that a successful `TraceHTTPClient.Do`
returns and every number `n` of calls of `Close` on it, the transport body is closed `n`
times and `End` is called on the span `n` times, once per `Close`; the `End` calls number
exactly one if and only if `n = 1`. -/
theorem closeTimes_end_count (L : Library) (c : TraceHTTPClient) (r : Request) (log : Log)
    (resp : Response ReadCloser) (h : c.client (c.outgoing r log) = .ok resp)
    (n : Nat) (later : Log) :
    (c.Do L r log).1 = .ok { StatusCode := resp.StatusCode,
                             Body := { ReadCloser := resp.Body,
                                       span := some (nextSpan log) } } ∧
    endCount (some (nextSpan log)) (eventsSince later
      (closeTimes { ReadCloser := resp.Body, span := some (nextSpan log) } n later)) = n ∧
    (eventsSince later
      (closeTimes { ReadCloser := resp.Body, span := some (nextSpan log) } n later)).count
        (Event.BodyClose resp.Body.id) = n ∧
    (endCount (some (nextSpan log)) (eventsSince later
      (closeTimes { ReadCloser := resp.Body, span := some (nextSpan log) } n later)) = 1 ↔
        n = 1) := by
  have hcount : ∀ k : Nat, endCount (some (nextSpan log))
      (List.replicate k [Event.BodyClose resp.Body.id,
        Event.Call (some (nextSpan log)) .End]).flatten = k := by
    intro k
    induction k with
    | zero => simp [endCount]
    | succ j ih =>
      simp only [endCount] at ih
      simp [endCount, List.replicate_succ, List.count_cons, ih]
  have hclose : ∀ k : Nat, (List.replicate k [Event.BodyClose resp.Body.id,
        Event.Call (some (nextSpan log)) .End]).flatten.count
          (Event.BodyClose resp.Body.id) = k := by
    intro k
    induction k with
    | zero => simp
    | succ j ih =>
      simp [List.replicate_succ, List.count_cons, ih]
  refine ⟨?_, ?_, ?_, ?_⟩
  · rw [Do_eq, h]
  · rw [closeTimes_log, eventsSince_append]; exact hcount n
  · rw [closeTimes_log, eventsSince_append]; exact hclose n
  · rw [closeTimes_log, eventsSince_append, hcount n]

theorem finishTrace_log (t : TraceServerHooks) (ctx : Context) (log : Log) :
    t.finishTrace ctx log = log ++
      ((if ctx.statusCode.isSome = true ∧ (Atoi (ctx.statusCode.getD "")).2 ≠ none then
        [Event.Call ctx.span (.SetAttributes
          (semconv.HTTPAttributesFromHTTPStatusCode (Atoi (ctx.statusCode.getD "")).1))]
       else []) ++
      [Event.Call ctx.span (.AddEvent rpcEventName [RPCMessageTypeSent]),
       Event.Call ctx.span .End]) := by
  unfold TraceServerHooks.finishTrace
  simp only [twirp.StatusCode, SpanFromContext, Span.call]
  split_ifs <;> simp

theorem handleError_log (L : Library) (t : TraceServerHooks) (ctx : Context)
    (err : TwirpError) (log : Log) :
    t.handleError L ctx err log = (ctx, log ++
      (if t.includeClientErrors = true ∨ L.ServerHTTPStatusFromErrorCode err.Code ≥ 500 then
        [Event.Call ctx.span (.RecordError err.Error),
         Event.Call ctx.span (.SetStatus .Error err.Error)]
       else [])) := by
  unfold TraceServerHooks.handleError
  simp only [SpanFromContext, Span.call]
  split_ifs <;> simp

theorem spanName_append (id : Nat) : ∀ (l1 l2 : Log) (n : Option String),
    spanName id (l1 ++ l2) n = spanName id l2 (spanName id l1 n) := by
  intro l1
  induction l1 with
  | nil => intro l2 n; rfl
  | cons e rest ih =>
    intro l2 n
    cases e with
    | Start i name k a => simp [spanName, ih]
    | Call sp c => cases c <;> simp [spanName, ih]
    | BodyClose b => simp [spanName, ih]

/-- C2 (as stated, refuted): the sequence RequestReceived, Error, one of the two terminal
hooks the claim allows, runs to completion and leaves the span started at RequestReceived
with no `End` call at all. -/
theorem error_terminal_never_ends_span :
    (runHooks goLibrary ⟨true⟩
        (hookSequence ⟨none, none, none, none⟩ none
          (some (⟨"internal", "boom"⟩, ⟨none, none, none, none⟩)) none)
        (Context.Background, [])).map (fun s => endCount (some 0) s.2) = some 0 := by
  decide

theorem callHook_received (L : Library) (t : TraceServerHooks) (m : Metadata) (ctx : Context)
    (log : Log) :
    callHook L t .RequestReceived m (ctx, log) =
      some ({ ctx.withMetadata m with span := some (nextSpan log) },
        log ++ [Event.Start (nextSpan log) rpcEventName .SpanKindServer [],
          Event.Call (some (nextSpan log)) (.AddEvent rpcEventName [RPCMessageTypeReceived])]) := by
  simp [callHook, TraceServerHooks.startTraceSpan, tracerStart, Span.call]

theorem callHook_routed (L : Library) (t : TraceServerHooks) (m : Metadata) (ctx : Context)
    (log : Log) (addr : String) (h : ctx.remoteAddr = some addr) :
    callHook L t .RequestRouted m (ctx, log) =
      some (ctx.withMetadata m,
        log ++ [Event.Call ctx.span (.SetName (spanInfo L (ctx.withMetadata m) addr).1),
          Event.Call ctx.span (.SetAttributes (spanInfo L (ctx.withMetadata m) addr).2)]) := by
  simp [callHook, TraceServerHooks.handleRequestRouted, Context.withMetadata, h, Span.call,
    SpanFromContext]

theorem callHook_error (L : Library) (t : TraceServerHooks) (m : Metadata) (ctx : Context)
    (log : Log) (err : TwirpError) :
    callHook L t (.Error err) m (ctx, log) =
      some (ctx.withMetadata m, log ++
        (if t.includeClientErrors = true ∨ L.ServerHTTPStatusFromErrorCode err.Code ≥ 500 then
          [Event.Call ctx.span (.RecordError err.Error),
           Event.Call ctx.span (.SetStatus .Error err.Error)]
         else [])) := by
  simp [callHook, handleError_log, Context.withMetadata]

theorem callHook_sent (L : Library) (t : TraceServerHooks) (m : Metadata) (ctx : Context)
    (log : Log) :
    callHook L t .ResponseSent m (ctx, log) =
      some (ctx, log ++
        ((if m.statusCode.isSome = true ∧ (Atoi (m.statusCode.getD "")).2 ≠ none then
          [Event.Call ctx.span (.SetAttributes
            (semconv.HTTPAttributesFromHTTPStatusCode (Atoi (m.statusCode.getD "")).1))]
         else []) ++
        [Event.Call ctx.span (.AddEvent rpcEventName [RPCMessageTypeSent]),
         Event.Call ctx.span .End])) := by
  simp [callHook, finishTrace_log, Context.withMetadata]

theorem endCount_append (sp : Span) (l1 l2 : Log) :
    endCount sp (l1 ++ l2) = endCount sp l1 + endCount sp l2 := by
  simp [endCount]

/-- C2 (as amended): for every hook sequence that begins with RequestReceived, is optionally
followed by RequestRouted on a context that holds the remote address, then optionally by
Error, and terminates with ResponseSent, all hooks complete, the log only grows, and the span
started at RequestReceived has received exactly one `End` call; when RequestRouted did not
fire, the span's name is still the placeholder "message".  The same sequence stopped after the
Error hook, without ResponseSent, leaves the span with no `End` call. -/
theorem server_span_ended_once (L : Library) (t : TraceServerHooks) (ctx : Context) (log : Log)
    (received sent : Metadata) (routed : Option Metadata)
    (failed : Option (TwirpError × Metadata)) (err : TwirpError) (m : Metadata)
    (h : routed ≠ none → ctx.remoteAddr ≠ none) :
    (∃ s, runHooks L t (hookSequence received routed failed (some sent)) (ctx, log) = some s ∧
      s.2.take log.length = log ∧
      endCount (some (nextSpan log)) (eventsSince log s.2) = 1 ∧
      (routed = none → spanName (nextSpan log) s.2 none = some "message")) ∧
    (∃ s, runHooks L t (hookSequence received routed (some (err, m)) none) (ctx, log) = some s ∧
      endCount (some (nextSpan log)) (eventsSince log s.2) = 0) := by
  constructor
  · cases routed with
    | none =>
      cases failed with
      | none =>
        simp only [hookSequence, List.append_nil, List.singleton_append, runHooks,
          callHook_received, callHook_sent, List.append_assoc]
        refine ⟨_, rfl, ?_, ?_, ?_⟩
        · simp
        · rw [eventsSince_append]
          split_ifs <;> simp [endCount, List.count_cons]
        · intro _
          rw [spanName_append]
          split_ifs <;> simp [spanName, rpcEventName]
      | some em =>
        obtain ⟨e, me⟩ := em
        simp only [hookSequence, List.append_nil, List.singleton_append, runHooks,
          callHook_received, callHook_sent, callHook_error, List.append_assoc, List.cons_append,
          List.nil_append]
        refine ⟨_, rfl, ?_, ?_, ?_⟩
        · simp
        · rw [eventsSince_append]
          split_ifs <;> simp [endCount, List.count_cons, Context.withMetadata]
        · intro _
          rw [spanName_append]
          split_ifs <;> simp [spanName, rpcEventName, Context.withMetadata]
    | some mr =>
      have hr : ctx.remoteAddr ≠ none := h (by simp)
      obtain ⟨addr, haddr⟩ := Option.ne_none_iff_exists'.mp hr
      have haddr' : ({ ctx.withMetadata received with span := some (nextSpan log) } :
          Context).remoteAddr = some addr := by
        simpa [Context.withMetadata] using haddr
      cases failed with
      | none =>
        simp only [hookSequence, List.append_nil, List.singleton_append, runHooks,
          callHook_received, callHook_sent, callHook_routed _ _ _ _ _ addr haddr',
          List.append_assoc, List.cons_append, List.nil_append]
        refine ⟨_, rfl, ?_, ?_, ?_⟩
        · simp
        · rw [eventsSince_append]
          split_ifs <;> simp [endCount, List.count_cons, Context.withMetadata]
        · intro hc; cases hc
      | some em =>
        obtain ⟨e, me⟩ := em
        simp only [hookSequence, List.append_nil, List.singleton_append, runHooks,
          callHook_received, callHook_sent, callHook_routed _ _ _ _ _ addr haddr',
          callHook_error, List.append_assoc, List.cons_append, List.nil_append]
        refine ⟨_, rfl, ?_, ?_, ?_⟩
        · simp
        · rw [eventsSince_append]
          split_ifs <;> simp [endCount, List.count_cons, Context.withMetadata]
        · intro hc; cases hc
  · cases routed with
    | none =>
      simp only [hookSequence, List.append_nil, List.singleton_append, runHooks,
        callHook_received, callHook_error, List.append_assoc, List.cons_append,
        List.nil_append]
      refine ⟨_, rfl, ?_⟩
      rw [eventsSince_append]
      split_ifs <;> simp [endCount, List.count_cons, Context.withMetadata]
    | some mr =>
      have hr : ctx.remoteAddr ≠ none := h (by simp)
      obtain ⟨addr, haddr⟩ := Option.ne_none_iff_exists'.mp hr
      have haddr' : ({ ctx.withMetadata received with span := some (nextSpan log) } :
          Context).remoteAddr = some addr := by
        simpa [Context.withMetadata] using haddr
      simp only [hookSequence, List.append_nil, List.singleton_append, runHooks,
        callHook_received, callHook_error, callHook_routed _ _ _ _ _ addr haddr',
        List.append_assoc, List.cons_append, List.nil_append]
      refine ⟨_, rfl, ?_⟩
      rw [eventsSince_append]
      split_ifs <;> simp [endCount, List.count_cons, Context.withMetadata]

/-- Witness for C2: a routed, failed and answered request from
`10.0.0.5:8080`. -/
theorem server_span_ended_once_witness :
    (some routedMetadata ≠ none → servedContext.remoteAddr ≠ none) ∧
    ((∃ s, runHooks goLibrary ⟨false⟩
        (hookSequence noMetadata (some routedMetadata)
          (some (⟨"not_found", "no such thing"⟩, routedMetadata)) (some sentMetadata))
        (servedContext, []) = some s ∧
      s.2.take ([] : Log).length = [] ∧
      endCount (some (nextSpan [])) (eventsSince [] s.2) = 1 ∧
      (some routedMetadata = none → spanName (nextSpan []) s.2 none = some "message")) ∧
    (∃ s, runHooks goLibrary ⟨false⟩
        (hookSequence noMetadata (some routedMetadata)
          (some (⟨"unavailable", "down"⟩, routedMetadata)) none)
        (servedContext, []) = some s ∧
      endCount (some (nextSpan [])) (eventsSince [] s.2) = 0)) :=
  ⟨fun _ => by decide,
   server_span_ended_once goLibrary ⟨false⟩ servedContext [] noMetadata sentMetadata
     (some routedMetadata) (some (⟨"not_found", "no such thing"⟩, routedMetadata))
     ⟨"unavailable", "down"⟩ routedMetadata (fun _ => by decide)⟩

/-- Witness for C4: a transport answering 404 behind a wrapper that excludes
client errors. -/
theorem Do_status_spec_witness :
    client404.client (client404.outgoing plainRequest []) = .ok response404 ∧
    ((client404.Do goLibrary plainRequest []).2 = [] ++
      [Event.Start (nextSpan []) (spanInfo goLibrary plainRequest.ctx plainRequest.RemoteAddr).1
          .SpanKindClient
          ((spanInfo goLibrary plainRequest.ctx plainRequest.RemoteAddr).2 ++
            plainRequest.HTTPClientAttributes),
       Event.Call (some (nextSpan [])) (.AddEvent rpcEventName [RPCMessageTypeSent])] ++
      (if response404.StatusCode ≥ 500 ∨
          (client404.includeClientErrors = true ∧ response404.StatusCode ≥ 400)
        then [Event.Call (some (nextSpan [])) (.SetStatus .Error "")] else []) ++
      [Event.Call (some (nextSpan []))
        (.SetAttributes (semconv.HTTPAttributesFromHTTPStatusCode response404.StatusCode))] ∧
    (markedError (some (nextSpan [])) (eventsSince [] (client404.Do goLibrary plainRequest []).2)
        = true ↔
      (response404.StatusCode ≥ 500 ∨
        (client404.includeClientErrors = true ∧ response404.StatusCode ≥ 400))) ∧
    SpanCall.SetAttributes (semconv.HTTPAttributesFromHTTPStatusCode response404.StatusCode) ∈
      callsOn (some (nextSpan [])) (eventsSince [] (client404.Do goLibrary plainRequest []).2) ∧
    (response404.StatusCode = 404 →
      (markedError (some (nextSpan []))
          (eventsSince [] (client404.Do goLibrary plainRequest []).2) = true ↔
        client404.includeClientErrors = true)) ∧
    (response404.StatusCode = 500 →
      markedError (some (nextSpan []))
        (eventsSince [] (client404.Do goLibrary plainRequest []).2) = true)) :=
  ⟨rfl, Do_status_spec goLibrary client404 plainRequest [] response404 rfl⟩

/-- Witness for C5: the body of the 404 response, whose transport `Close`
fails. -/
theorem closer_Close_spec_witness :
    client404.client (client404.outgoing plainRequest []) = .ok response404 ∧
    ((client404.Do goLibrary plainRequest []).1 =
        .ok { StatusCode := response404.StatusCode,
              Body := { ReadCloser := response404.Body, span := some (nextSpan []) } } ∧
    endCount (some (nextSpan []))
      (eventsSince [] (client404.Do goLibrary plainRequest []).2) = 0 ∧
    ∀ later : Log,
      closer.Close { ReadCloser := response404.Body, span := some (nextSpan []) } later =
        ((response404.Body.Close later).1,
          later ++ [Event.BodyClose response404.Body.id,
            Event.Call (some (nextSpan [])) .End]) ∧
      (response404.Body.Close later).1 =
        response404.Body.closeResult (later.count (Event.BodyClose response404.Body.id)) ∧
      endCount (some (nextSpan [])) (eventsSince later
        (closer.Close { ReadCloser := response404.Body, span := some (nextSpan []) }
          later).2) = 1) :=
  ⟨rfl, closer_Close_spec goLibrary client404 plainRequest [] response404 rfl⟩

/-- C9 (as stated, refuted): after a successful `Do`, two calls of `Close` on the returned
body make two `End` calls on the span, not one. -/
theorem close_twice_ends_twice :
    client404.client (client404.outgoing plainRequest []) = .ok response404 ∧
    (match (client404.Do goLibrary plainRequest []).1 with
      | .ok resp =>
        endCount resp.Body.span (eventsSince (client404.Do goLibrary plainRequest []).2
          (closeTimes resp.Body 2 (client404.Do goLibrary plainRequest []).2))
      | .error _ => 0) = 2 := by
  constructor
  · rfl
  · decide

/-- Witness for C9: three calls of `Close` on the body of the 404
response. -/
theorem closeTimes_end_count_witness :
    client404.client (client404.outgoing plainRequest []) = .ok response404 ∧
    ((client404.Do goLibrary plainRequest []).1 =
        .ok { StatusCode := response404.StatusCode,
              Body := { ReadCloser := response404.Body, span := some (nextSpan []) } } ∧
    endCount (some (nextSpan [])) (eventsSince []
      (closeTimes { ReadCloser := response404.Body, span := some (nextSpan []) } 3 [])) = 3 ∧
    (eventsSince []
      (closeTimes { ReadCloser := response404.Body, span := some (nextSpan []) } 3 [])).count
        (Event.BodyClose response404.Body.id) = 3 ∧
    (endCount (some (nextSpan [])) (eventsSince []
      (closeTimes { ReadCloser := response404.Body, span := some (nextSpan []) } 3 [])) = 1 ↔
        3 = 1)) :=
  ⟨rfl, closeTimes_end_count goLibrary client404 plainRequest [] response404 rfl 3 []⟩

/-- C8 (as stated, refuted): the non-empty input ":8080" has an empty host part, so both `ip`
and `name` come back empty. -/
theorem port_only_input_ip_and_name_empty :
    ":8080" ≠ "" ∧
    (hostIPNamePort goLibrary ":8080").1 = "" ∧
    (hostIPNamePort goLibrary ":8080").2.1 = "" := by
  decide

/-- C8 (as amended): with a `ParseIP` that refuses the empty text and never prints an
address as the empty text, `hostIPNamePort` returns `ip` and `name` such that exactly one of
them is non-empty when the host part of the input is non-empty, and both are empty when the
host part is empty, which is the case for the empty input and for inputs such as ":8080". -/
theorem hostIPNamePort_ip_name (L : Library) (hostWithPort : String)
    (hnil : L.ParseIP "" = none) (hne : ∀ h r, L.ParseIP h = some r → r ≠ "") :
    ((hostPortParts hostWithPort).1 ≠ "" →
      ((hostIPNamePort L hostWithPort).1 ≠ "" ∧ (hostIPNamePort L hostWithPort).2.1 = "") ∨
      ((hostIPNamePort L hostWithPort).1 = "" ∧ (hostIPNamePort L hostWithPort).2.1 ≠ "")) ∧
    ((hostPortParts hostWithPort).1 = "" →
      (hostIPNamePort L hostWithPort).1 = "" ∧ (hostIPNamePort L hostWithPort).2.1 = "") ∧
    (hostWithPort = "" →
      (hostIPNamePort L hostWithPort).1 = "" ∧ (hostIPNamePort L hostWithPort).2.1 = "") ∧
    (hostPortParts "").1 = "" ∧ (hostPortParts ":8080").1 = "" := by
  have hempty : (hostPortParts hostWithPort).1 = "" →
      (hostIPNamePort L hostWithPort).1 = "" ∧ (hostIPNamePort L hostWithPort).2.1 = "" := by
    intro h0
    simp [hostIPNamePort, h0, hnil]
  refine ⟨?_, hempty, ?_, by decide, by decide⟩
  · intro hhost
    cases hp : L.ParseIP (hostPortParts hostWithPort).1 with
    | none =>
      right
      simpa [hostIPNamePort, hp] using hhost
    | some parsed =>
      left
      simpa [hostIPNamePort, hp] using hne _ _ hp
  · intro h0
    apply hempty
    rw [h0]
    decide

/-- Witness for C8: the Go `ParseIP` on "example.com:80". -/
theorem hostIPNamePort_ip_name_witness :
    goLibrary.ParseIP "" = none ∧
    (∀ h r, goLibrary.ParseIP h = some r → r ≠ "") ∧
    (((hostPortParts "example.com:80").1 ≠ "" →
      ((hostIPNamePort goLibrary "example.com:80").1 ≠ "" ∧
        (hostIPNamePort goLibrary "example.com:80").2.1 = "") ∨
      ((hostIPNamePort goLibrary "example.com:80").1 = "" ∧
        (hostIPNamePort goLibrary "example.com:80").2.1 ≠ "")) ∧
    ((hostPortParts "example.com:80").1 = "" →
      (hostIPNamePort goLibrary "example.com:80").1 = "" ∧
        (hostIPNamePort goLibrary "example.com:80").2.1 = "") ∧
    ("example.com:80" = "" →
      (hostIPNamePort goLibrary "example.com:80").1 = "" ∧
        (hostIPNamePort goLibrary "example.com:80").2.1 = "") ∧
    (hostPortParts "").1 = "" ∧ (hostPortParts ":8080").1 = "") :=
  ⟨by decide, ParseIP_ne_empty,
   hostIPNamePort_ip_name goLibrary "example.com:80" (by decide) ParseIP_ne_empty⟩

end oteltwirp
